import Mathlib

/-!
Shallow embedding of the `log_buffer` fixed-capacity buffer writer
(`include/log_buffer/logger.hpp` and `src/logger.cpp`).

The writer is bound to a caller-supplied byte region; it tracks a cursor
(`position`), a sticky `overflow` flag and a current integer display format.
Bytes are modelled as `Nat` values, the bound region as a `List Nat` whose
length never changes (writes overwrite in place).  Integral values passed to
the integer logging path are modelled as `Int`; the C++ template only
instantiates at fixed-width integral types, whose formatted text always fits
the 68-byte scratch buffer, so that bound appears as an explicit side
condition (`opFits`) where a claim quantifies over integer appends.
-/

namespace LogBuffer

/-- `enum class IntFormat` from `logger.hpp`. -/
inductive IntFormat
  | Dec
  | Hex
  | HEX
  | Oct
deriving DecidableEq, Repr

/-- The `std::ios_base` basefield bits relevant to the manipulator adapter:
`std::dec`, `std::hex`, `std::oct` each set exactly one of these. -/
inductive BaseField
  | dec
  | hex
  | oct
deriving DecidableEq, Repr

/-- The slice of `std::ios_base::fmtflags` the adapter inspects: the
basefield and the `uppercase` bit. -/
structure FmtFlags where
  basefield : BaseField
  uppercase : Bool
deriving DecidableEq, Repr

/-- Flags of a freshly constructed `std::ios` (the `DummyStream` in
`Logger::operator<<`): `skipws | dec`, so basefield `dec` and the
`uppercase` bit clear. -/
def dummyFlags : FmtFlags := { basefield := BaseField.dec, uppercase := false }

/-- `std::hex`: sets the basefield to `hex`, leaves `uppercase` alone. -/
def stdHex (f : FmtFlags) : FmtFlags := { f with basefield := BaseField.hex }

/-- `std::dec`: sets the basefield to `dec`, leaves `uppercase` alone. -/
def stdDec (f : FmtFlags) : FmtFlags := { f with basefield := BaseField.dec }

/-- `std::oct`: sets the basefield to `oct`, leaves `uppercase` alone. -/
def stdOct (f : FmtFlags) : FmtFlags := { f with basefield := BaseField.oct }

/-- `std::uppercase`: sets the `uppercase` bit, leaves the basefield alone. -/
def stdUppercase (f : FmtFlags) : FmtFlags := { f with uppercase := true }

/-- `std::nouppercase`: clears the `uppercase` bit, leaves the basefield
alone. -/
def stdNouppercase (f : FmtFlags) : FmtFlags := { f with uppercase := false }

/-- The `Logger` state: bound region (`m_buffer`, kept at fixed length),
`m_capacity`, `m_position`, `m_overflow`, `m_int_format`. -/
structure Logger where
  buffer : List Nat
  capacity : Nat
  position : Nat
  overflow : Bool
  int_format : IntFormat
deriving DecidableEq, Repr

/-- The constructor `Logger(uint8_t* buffer, std::size_t size)`: position 0,
overflow clear, format `Dec`, capacity the length of the bound region. -/
def mkLogger (buf : List Nat) : Logger :=
  { buffer := buf
    capacity := buf.length
    position := 0
    overflow := false
    int_format := IntFormat.Dec }

/-- `Logger::bytes_written()`. -/
def bytes_written (l : Logger) : Nat := l.position

/-- `Logger::remaining_capacity()`:
`m_capacity > m_position ? m_capacity - m_position : 0`. -/
def remaining_capacity (l : Logger) : Nat :=
  if l.capacity > l.position then l.capacity - l.position else 0

/-- `Logger::has_overflowed()`. -/
def has_overflowed (l : Logger) : Bool := l.overflow

/-- `Logger::reset()`: `m_position = 0; m_overflow = false;`. -/
def reset (l : Logger) : Logger :=
  { l with position := 0, overflow := false }

/-- `Logger::set_int_format(IntFormat)`. -/
def set_int_format (fmt : IntFormat) (l : Logger) : Logger :=
  { l with int_format := fmt }

/-- `Logger::get_int_format()`. -/
def get_int_format (l : Logger) : IntFormat := l.int_format

/-- `std::memcpy(m_buffer + off, data, data.size)`: overwrite the region at
offset `off` with `data`, leaving the length unchanged. -/
def storeBytes (buf : List Nat) (off : Nat) : List Nat → List Nat
  | [] => buf
  | b :: rest => storeBytes (buf.set off b) (off + 1) rest

/-- `Logger::log(const uint8_t* data, std::size_t size)`: raw bytes, no
terminator. -/
def logRaw (data : List Nat) (l : Logger) : Bool × Logger :=
  if data.length > remaining_capacity l then
    (false, { l with overflow := true })
  else
    (true, { l with buffer := storeBytes l.buffer l.position data
                    position := l.position + data.length })

/-- `Logger::log(std::string_view str)`: string bytes plus one null
terminator; required space is `str.size() + 1`. -/
def logText (str : List Char) (l : Logger) : Bool × Logger :=
  if str.length + 1 > remaining_capacity l then
    (false, { l with overflow := true })
  else
    (true, { l with buffer := storeBytes l.buffer l.position (str.map Char.toNat ++ [0])
                    position := l.position + (str.length + 1) })

/-- `Logger::log_formatted_string(const char* str, std::size_t length)`:
same contract as the text overload. -/
def log_formatted_string (str : List Char) (l : Logger) : Bool × Logger :=
  if str.length + 1 > remaining_capacity l then
    (false, { l with overflow := true })
  else
    (true, { l with buffer := storeBytes l.buffer l.position (str.map Char.toNat ++ [0])
                    position := l.position + (str.length + 1) })

/-- Base selected by the `switch (m_int_format)` in the template `log`. -/
def formatBase : IntFormat → Nat
  | IntFormat.Dec => 10
  | IntFormat.Hex => 16
  | IntFormat.HEX => 16
  | IntFormat.Oct => 8

/-- Characters written before `start` by the `switch (m_int_format)`:
`"0x"`, `"0X"`, `"0"` or nothing. -/
def formatHead : IntFormat → List Char
  | IntFormat.Dec => []
  | IntFormat.Hex => ['0', 'x']
  | IntFormat.HEX => ['0', 'X']
  | IntFormat.Oct => ['0']

/-- `std::to_chars(start, end, value, base)` character output: digits of the
absolute value in the given base, lowercase letters for digits above 9, with
a leading minus sign when the value is negative. -/
def toChars (v : Int) (base : Nat) : List Char :=
  if v < 0 then '-' :: Nat.toDigits base v.natAbs
  else Nat.toDigits base v.natAbs

/-- The post-conversion uppercase pass of the template `log`: characters in
`'a'..'f'` become `'A'..'F'`, all others are untouched. -/
def toUpperHexChar (c : Char) : Char :=
  if 'a' ≤ c ∧ c ≤ 'f' then Char.ofNat (c.toNat - 32) else c

/-- Digit characters produced between `start` and `result.ptr`, after the
uppercase pass when the format is `HEX`. -/
def formatDigits (fmt : IntFormat) (v : Int) : List Char :=
  if fmt = IntFormat.HEX then (toChars v (formatBase fmt)).map toUpperHexChar
  else toChars v (formatBase fmt)

/-- Full text the template `log` hands to `log_formatted_string`: format
head followed by the (possibly uppercased) digit run. -/
def formatInt (fmt : IntFormat) (v : Int) : List Char :=
  formatHead fmt ++ formatDigits fmt v

/-- Template `Logger::log(T value)` for integral `T`: writes the head into
the 68-byte scratch buffer, calls `to_chars` on the remaining
`67 - head.length` characters (returning `false` with no state change if the
digits do not fit — the defensive `result.ec != std::errc{}` branch),
uppercases for `HEX`, then commits through `log_formatted_string`. -/
def logInt (v : Int) (l : Logger) : Bool × Logger :=
  if 67 - (formatHead l.int_format).length < (toChars v (formatBase l.int_format)).length then
    (false, l)
  else
    log_formatted_string (formatInt l.int_format v) l

/-- `Logger::operator<<(std::ios_base& (*manip)(std::ios_base&))`: runs the
manipulator on a fresh dummy stream and compares flags before and after,
exactly as in `src/logger.cpp`. -/
def applyManip (manip : FmtFlags → FmtFlags) (l : Logger) : Logger :=
  let old_flags := dummyFlags
  let new_flags := manip dummyFlags
  if old_flags.basefield ≠ new_flags.basefield then
    if new_flags.basefield = BaseField.hex then
      if new_flags.uppercase then { l with int_format := IntFormat.HEX }
      else { l with int_format := IntFormat.Hex }
    else if new_flags.basefield = BaseField.oct then
      { l with int_format := IntFormat.Oct }
    else if new_flags.basefield = BaseField.dec then
      { l with int_format := IntFormat.Dec }
    else l
  else
    if old_flags.uppercase ≠ new_flags.uppercase then
      if l.int_format = IntFormat.Hex ∨ l.int_format = IntFormat.HEX then
        if new_flags.uppercase then { l with int_format := IntFormat.HEX }
        else { l with int_format := IntFormat.Hex }
      else l
    else l

/-- One append-class operation: raw bytes, text, or an integral value. -/
inductive LogOp
  | raw (data : List Nat)
  | text (str : List Char)
  | int (v : Int)
deriving DecidableEq, Repr

/-- Dispatch an append operation to the corresponding overload. -/
def runOp : LogOp → Logger → Bool × Logger
  | LogOp.raw d, l => logRaw d l
  | LogOp.text s, l => logText s l
  | LogOp.int v, l => logInt v l

/-- Required space of an append under the given integer format: `len` for
raw, `len + 1` for text, formatted length (head included) plus terminator
for integers. -/
def requiredSize (fmt : IntFormat) : LogOp → Nat
  | LogOp.raw d => d.length
  | LogOp.text s => s.length + 1
  | LogOp.int v => (formatInt fmt v).length + 1

/-- An integer append's text fits the 68-byte scratch buffer; true of every
fixed-width integral value the C++ template can be instantiated at, and
vacuously true of raw and text appends. -/
def opFits (fmt : IntFormat) : LogOp → Bool
  | LogOp.int v => decide ((formatInt fmt v).length ≤ 67)
  | _ => true

/-- Run a chain of appends left to right (as the chaining adapter does),
reporting whether every one of them succeeded. -/
def runOps : List LogOp → Logger → Bool × Logger
  | [], l => (true, l)
  | op :: rest, l =>
    ((runOp op l).1 && (runOps rest (runOp op l).2).1,
     (runOps rest (runOp op l).2).2)

end LogBuffer

namespace LogBuffer

/-! ## Helper lemmas shared by the claim theorems -/

theorem storeBytes_length (data : List Nat) :
    ∀ (buf : List Nat) (off : Nat), (storeBytes buf off data).length = buf.length := by
  induction data with
  | nil => intro buf off; rfl
  | cons b rest ih =>
    intro buf off
    rw [storeBytes, ih, List.length_set]

theorem remaining_capacity_eq_sub (l : Logger) :
    remaining_capacity l = l.capacity - l.position := by
  rw [remaining_capacity]
  split <;> omega

theorem formatInt_length (fmt : IntFormat) (v : Int) :
    (formatInt fmt v).length
      = (formatHead fmt).length + (toChars v (formatBase fmt)).length := by
  rw [formatInt, List.length_append, formatDigits]
  split
  · rw [List.length_map]
  · rfl

theorem runOp_exceeds (op : LogOp) (l : Logger)
    (hfit : opFits l.int_format op = true)
    (h : remaining_capacity l < requiredSize l.int_format op) :
    runOp op l = (false, { l with overflow := true }) := by
  cases op with
  | raw d =>
    rw [requiredSize] at h
    rw [runOp, logRaw, if_pos (by omega)]
  | text s =>
    rw [requiredSize] at h
    rw [runOp, logText, if_pos (by omega)]
  | int v =>
    have hlen := formatInt_length l.int_format v
    rw [requiredSize] at h
    rw [opFits, decide_eq_true_eq] at hfit
    rw [runOp, logInt, if_neg (by omega), log_formatted_string, if_pos (by omega)]

theorem runOp_fail_false (op : LogOp) (l : Logger)
    (h : remaining_capacity l < requiredSize l.int_format op) :
    (runOp op l).1 = false := by
  cases op with
  | raw d =>
    rw [requiredSize] at h
    rw [runOp, logRaw, if_pos (by omega)]
  | text s =>
    rw [requiredSize] at h
    rw [runOp, logText, if_pos (by omega)]
  | int v =>
    rw [requiredSize] at h
    rw [runOp, logInt]
    split
    · rfl
    · rw [log_formatted_string, if_pos (by omega)]

theorem runOp_fits_succeeds (op : LogOp) (l : Logger)
    (hfit : opFits l.int_format op = true)
    (h : requiredSize l.int_format op ≤ remaining_capacity l) :
    (runOp op l).1 = true := by
  cases op with
  | raw d =>
    rw [requiredSize] at h
    rw [runOp, logRaw, if_neg (by omega)]
  | text s =>
    rw [requiredSize] at h
    rw [runOp, logText, if_neg (by omega)]
  | int v =>
    have hlen := formatInt_length l.int_format v
    rw [requiredSize] at h
    rw [opFits, decide_eq_true_eq] at hfit
    rw [runOp, logInt, if_neg (by omega), log_formatted_string, if_neg (by omega)]

theorem runOp_fail_state (op : LogOp) (l : Logger)
    (hfit : opFits l.int_format op = true)
    (h : (runOp op l).1 = false) :
    runOp op l = (false, { l with overflow := true }) := by
  by_cases hr : requiredSize l.int_format op ≤ remaining_capacity l
  · rw [runOp_fits_succeeds op l hfit hr] at h
    exact absurd h (by simp)
  · exact runOp_exceeds op l hfit (by omega)

theorem runOp_succ_state (op : LogOp) (l : Logger)
    (h : (runOp op l).1 = true) :
    (runOp op l).2.position = l.position + requiredSize l.int_format op ∧
    (runOp op l).2.int_format = l.int_format ∧
    (runOp op l).2.capacity = l.capacity ∧
    (runOp op l).2.overflow = l.overflow := by
  cases op with
  | raw d =>
    rw [runOp, logRaw] at h ⊢
    split at h
    · exact absurd h (by simp)
    · rw [if_neg (by assumption)]
      exact ⟨rfl, rfl, rfl, rfl⟩
  | text s =>
    rw [runOp, logText] at h ⊢
    split at h
    · exact absurd h (by simp)
    · rw [if_neg (by assumption)]
      exact ⟨rfl, rfl, rfl, rfl⟩
  | int v =>
    rw [runOp, logInt] at h ⊢
    split at h
    · exact absurd h (by simp)
    · rw [if_neg (by assumption)]
      rw [log_formatted_string] at h ⊢
      split at h
      · exact absurd h (by simp)
      · rw [if_neg (by assumption)]
        exact ⟨rfl, rfl, rfl, rfl⟩

theorem runOp_overflow_mono (op : LogOp) (l : Logger) (h : l.overflow = true) :
    (runOp op l).2.overflow = true := by
  cases op with
  | raw d =>
    rw [runOp, logRaw]
    split
    · rfl
    · exact h
  | text s =>
    rw [runOp, logText]
    split
    · rfl
    · exact h
  | int v =>
    rw [runOp, logInt]
    split
    · exact h
    · rw [log_formatted_string]
      split
      · rfl
      · exact h

theorem applyManip_overflow (m : FmtFlags → FmtFlags) (l : Logger) :
    (applyManip m l).overflow = l.overflow := by
  rw [applyManip]
  repeat' split
  all_goals rfl

theorem runOps_succ (ops : List LogOp) :
    ∀ l : Logger, (runOps ops l).1 = true →
      (runOps ops l).2.position = l.position + (ops.map (requiredSize l.int_format)).sum ∧
      (runOps ops l).2.int_format = l.int_format ∧
      (runOps ops l).2.capacity = l.capacity := by
  induction ops with
  | nil =>
    intro l _
    exact ⟨by simp [runOps], rfl, rfl⟩
  | cons op rest ih =>
    intro l h
    rw [runOps, Bool.and_eq_true] at h
    obtain ⟨h1, h2⟩ := h
    obtain ⟨hp, hf, hc, _⟩ := runOp_succ_state op l h1
    obtain ⟨hp2, hf2, hc2⟩ := ih (runOp op l).2 h2
    rw [hf] at hp2 hf2
    rw [runOps]
    refine ⟨?_, hf2, hc2.trans hc⟩
    rw [hp2, hp, List.map_cons, List.sum_cons]
    omega

end LogBuffer

namespace LogBuffer

/-! ## Claim theorems -/

/-- C1: every append (raw bytes, text, or integer) whose required size
(`len` for raw, `len + 1` for text, formatted length including the base head
plus terminator for integers) exceeds the remaining capacity returns
failure, sets the overflow flag to true, and leaves the position and the
buffer contents completely unchanged. -/
theorem c1_oversized_append_rejected (op : LogOp) (l : Logger)
    (hfit : opFits l.int_format op = true)
    (h : remaining_capacity l < requiredSize l.int_format op) :
    runOp op l = (false, { l with overflow := true }) :=
  runOp_exceeds op l hfit h

/-- Witness for C1: writing the 2-character text `Hi` (3 bytes required)
into a fresh 2-byte writer fails with the flag set and no mutation. -/
theorem c1_oversized_append_rejected_witness :
    runOp (LogOp.text ['H', 'i']) (mkLogger [0, 0])
      = (false, { mkLogger [0, 0] with overflow := true }) :=
  c1_oversized_append_rejected (LogOp.text ['H', 'i']) (mkLogger [0, 0])
    (by decide) (by decide)

/-- C2 counterexample: logging `-1` with format `Hex` renders `0x-1` — the
minus sign appears after the base head, not the two's-complement bit
pattern `0xff`, refuting the claim that no `-` is emitted under hex. -/
theorem c2_negative_hex_counterexample :
    formatInt IntFormat.Hex (-1) = ['0', 'x', '-', '1'] ∧
    '-' ∈ formatInt IntFormat.Hex (-1) ∧
    (logInt (-1) (set_int_format IntFormat.Hex (mkLogger (List.replicate 8 0)))).2.buffer
      = ['0'.toNat, 'x'.toNat, '-'.toNat, '1'.toNat, 0, 0, 0, 0] := by
  decide

/-- C2 (amended): for every negative value and every format, the rendered
text is the base head followed by a `-` sign and the digits of the absolute
value in the corresponding base (uppercased under `HEX`); the `-` sign is
emitted under every format, not only `Dec`. -/
theorem c2_negative_renders_minus (fmt : IntFormat) (v : Int) (h : v < 0) :
    formatInt fmt v = formatHead fmt ++ '-' ::
      (if fmt = IntFormat.HEX
       then (Nat.toDigits (formatBase fmt) v.natAbs).map toUpperHexChar
       else Nat.toDigits (formatBase fmt) v.natAbs) := by
  rw [formatInt, formatDigits, toChars, if_pos h]
  by_cases hf : fmt = IntFormat.HEX
  · rw [if_pos hf, if_pos hf, List.map_cons]
    have hm : toUpperHexChar '-' = '-' := by decide
    rw [hm]
  · rw [if_neg hf, if_neg hf]

/-- Witness for C2 (amended): instantiated at `Hex` and `-1`. -/
theorem c2_negative_renders_minus_witness :
    formatInt IntFormat.Hex (-1) = formatHead IntFormat.Hex ++ '-' ::
      (if IntFormat.Hex = IntFormat.HEX
       then (Nat.toDigits (formatBase IntFormat.Hex) ((-1 : Int).natAbs)).map toUpperHexChar
       else Nat.toDigits (formatBase IntFormat.Hex) ((-1 : Int).natAbs)) :=
  c2_negative_renders_minus IntFormat.Hex (-1) (by decide)

/-- C3: evaluating the manipulator adapter at the divergent inputs.  The
dummy stream a manipulator is probed on always starts with basefield `dec`
and the uppercase bit clear, so: applying `std::dec` while the format is
`Hex` is a silent no-op (the claim says it yields `Dec`), and applying
`std::hex` while the format is `HEX` resets it to lowercase `Hex` (the
claim says uppercase is preserved).  `std::oct` does switch to `Oct`. -/
theorem c3_manip_base_switch_divergence :
    (applyManip stdDec (set_int_format IntFormat.Hex (mkLogger []))).int_format
      = IntFormat.Hex ∧
    (applyManip stdHex (set_int_format IntFormat.HEX (mkLogger []))).int_format
      = IntFormat.Hex ∧
    (applyManip stdOct (set_int_format IntFormat.Hex (mkLogger []))).int_format
      = IntFormat.Oct := by
  decide

/-- C4: evaluating the case-toggle directives.  `std::uppercase` on `Hex`
does yield `HEX`, but `std::nouppercase` on `HEX` is a silent no-op (the
dummy stream's uppercase bit is already clear, so no flag change is
detected), so toggling case twice (`uppercase` then `nouppercase`, starting
from `Hex`) ends at `HEX`, not back at `Hex` as the claim requires. -/
theorem c4_case_toggle_divergence :
    (applyManip stdUppercase (set_int_format IntFormat.Hex (mkLogger []))).int_format
      = IntFormat.HEX ∧
    (applyManip stdNouppercase (set_int_format IntFormat.HEX (mkLogger []))).int_format
      = IntFormat.HEX ∧
    (applyManip stdNouppercase
        (applyManip stdUppercase (set_int_format IntFormat.Hex (mkLogger [])))).int_format
      = IntFormat.HEX := by
  decide

/-- C5 counterexample: with capacity 10, after `Hi` (3 bytes) succeeds and
`VeryLong` (9 bytes) fails, a further `Hi` append succeeds — an append can
succeed between a failed append and the next reset. -/
theorem c5_append_after_failure_counterexample :
    (runOp (LogOp.text ['V', 'e', 'r', 'y', 'L', 'o', 'n', 'g'])
        (runOp (LogOp.text ['H', 'i']) (mkLogger (List.replicate 10 0))).2).1 = false ∧
    (runOp (LogOp.text ['H', 'i'])
        (runOp (LogOp.text ['V', 'e', 'r', 'y', 'L', 'o', 'n', 'g'])
          (runOp (LogOp.text ['H', 'i']) (mkLogger (List.replicate 10 0))).2).2).1 = true := by
  decide

/-- C5 (amended): a failed append leaves position and remaining capacity
unchanged, so every subsequent append whose required size still exceeds the
remaining capacity keeps failing (in particular, retrying the very append
that failed keeps failing) until `reset()`, and the overflow flag stays
set; an append whose required size fits the unchanged remaining capacity
can still succeed. -/
theorem c5_failed_append_keeps_failing (op op2 : LogOp) (l : Logger)
    (hfit : opFits l.int_format op = true)
    (h : (runOp op l).1 = false)
    (h2 : remaining_capacity l < requiredSize l.int_format op2) :
    (runOp op2 (runOp op l).2).1 = false ∧
    has_overflowed (runOp op2 (runOp op l).2).2 = true := by
  have hst := runOp_fail_state op l hfit h
  rw [hst]
  exact ⟨runOp_fail_false op2 _ h2,
    runOp_overflow_mono op2 { l with overflow := true } rfl⟩

/-- Witness for C5 (amended): retrying `Hi` on a 1-byte writer after it
failed fails again with the flag still set. -/
theorem c5_failed_append_keeps_failing_witness :
    (runOp (LogOp.text ['H', 'i'])
        (runOp (LogOp.text ['H', 'i']) (mkLogger [0])).2).1 = false ∧
    has_overflowed (runOp (LogOp.text ['H', 'i'])
        (runOp (LogOp.text ['H', 'i']) (mkLogger [0])).2).2 = true :=
  c5_failed_append_keeps_failing (LogOp.text ['H', 'i']) (LogOp.text ['H', 'i'])
    (mkLogger [0]) (by decide) (by decide) (by decide)

/-- C6: the overflow flag is sticky: once true it stays true across every
append (successful or not), every `set_int_format` call and every
manipulator application, and only `reset()` makes it false. -/
theorem c6_overflow_sticky (l : Logger) (h : l.overflow = true)
    (op : LogOp) (fmt : IntFormat) (m : FmtFlags → FmtFlags) :
    has_overflowed (runOp op l).2 = true ∧
    has_overflowed (set_int_format fmt l) = true ∧
    has_overflowed (applyManip m l) = true ∧
    has_overflowed (reset l) = false :=
  ⟨runOp_overflow_mono op l h, h, (applyManip_overflow m l).trans h, rfl⟩

/-- Witness for C6: a 1-byte writer with the flag already set, a zero-byte
raw append, a format change to `Hex`, and the `std::uppercase`
manipulator. -/
theorem c6_overflow_sticky_witness :
    has_overflowed (runOp (LogOp.raw []) { mkLogger [0] with overflow := true }).2 = true ∧
    has_overflowed (set_int_format IntFormat.Hex { mkLogger [0] with overflow := true }) = true ∧
    has_overflowed (applyManip stdUppercase { mkLogger [0] with overflow := true }) = true ∧
    has_overflowed (reset { mkLogger [0] with overflow := true }) = false :=
  c6_overflow_sticky { mkLogger [0] with overflow := true } rfl
    (LogOp.raw []) IntFormat.Hex stdUppercase

/-- C7: for every chain of appends that all succeed, starting from a
position-0 (fresh or reset) writer, `bytes_written()` is the sum of each
append's required size, and `remaining_capacity()` is the capacity minus
`bytes_written()`. -/
theorem c7_bytes_written_sum (l : Logger) (ops : List LogOp)
    (h0 : l.position = 0)
    (h : (runOps ops l).1 = true) :
    bytes_written (runOps ops l).2 = (ops.map (requiredSize l.int_format)).sum ∧
    remaining_capacity (runOps ops l).2
      = l.capacity - bytes_written (runOps ops l).2 := by
  obtain ⟨hp, hf, hc⟩ := runOps_succ ops l h
  constructor
  · rw [bytes_written, hp, h0, Nat.zero_add]
  · rw [remaining_capacity_eq_sub, hc, bytes_written]

/-- Witness for C7: text `A` into a fresh 3-byte writer: 2 bytes written,
1 remaining. -/
theorem c7_bytes_written_sum_witness :
    bytes_written (runOps [LogOp.text ['A']] (mkLogger [0, 0, 0])).2
      = ([LogOp.text ['A']].map (requiredSize (mkLogger [0, 0, 0]).int_format)).sum ∧
    remaining_capacity (runOps [LogOp.text ['A']] (mkLogger [0, 0, 0])).2
      = (mkLogger [0, 0, 0]).capacity
        - bytes_written (runOps [LogOp.text ['A']] (mkLogger [0, 0, 0])).2 :=
  c7_bytes_written_sum (mkLogger [0, 0, 0]) [LogOp.text ['A']] rfl (by decide)

/-- C8: after `reset()` the position is 0, the overflow flag is clear, the
remaining capacity equals the full capacity, and the integer format and
every byte of the bound region are unchanged. -/
theorem c8_reset_state (l : Logger) :
    (reset l).position = 0 ∧
    has_overflowed (reset l) = false ∧
    remaining_capacity (reset l) = l.capacity ∧
    (reset l).int_format = l.int_format ∧
    (reset l).buffer = l.buffer := by
  refine ⟨rfl, rfl, ?_, rfl, rfl⟩
  rw [remaining_capacity_eq_sub]
  rfl

/-- C9: logging the integer 255 into a fresh 8-byte writer renders, before
the null terminator, `0xff` under `Hex` (5 bytes written and success),
`0XFF` under `HEX`, `0377` under `Oct`, and `255` under the default
`Dec`. -/
theorem c9_int255_all_formats :
    ((logInt 255 (set_int_format IntFormat.Hex (mkLogger (List.replicate 8 0)))).1 = true ∧
     bytes_written
       (logInt 255 (set_int_format IntFormat.Hex (mkLogger (List.replicate 8 0)))).2 = 5 ∧
     (logInt 255 (set_int_format IntFormat.Hex (mkLogger (List.replicate 8 0)))).2.buffer
       = ['0'.toNat, 'x'.toNat, 'f'.toNat, 'f'.toNat, 0, 0, 0, 0]) ∧
    (logInt 255 (set_int_format IntFormat.HEX (mkLogger (List.replicate 8 0)))).2.buffer
      = ['0'.toNat, 'X'.toNat, 'F'.toNat, 'F'.toNat, 0, 0, 0, 0] ∧
    (logInt 255 (set_int_format IntFormat.Oct (mkLogger (List.replicate 8 0)))).2.buffer
      = ['0'.toNat, '3'.toNat, '7'.toNat, '7'.toNat, 0, 0, 0, 0] ∧
    (logInt 255 (mkLogger (List.replicate 8 0))).2.buffer
      = ['2'.toNat, '5'.toNat, '5'.toNat, 0, 0, 0, 0, 0] := by
  decide

/-- C10 counterexample: a zero-length raw append on a writer bound to a
zero-length region succeeds (the size check `0 > 0` is false), refuting the
claim that every append on a capacity-0 writer fails. -/
theorem c10_zero_capacity_counterexample :
    logRaw [] (mkLogger []) = (true, mkLogger []) := by
  decide

/-- C10 (amended): a capacity-0 writer rejects every raw append of positive
size and every text and integer append (failure, no mutation beyond the
flag); a zero-length raw append succeeds and writes nothing. -/
theorem c10_zero_capacity_rejects (l : Logger) (h : l.capacity = 0) :
    (∀ d : List Nat, d ≠ [] → logRaw d l = (false, { l with overflow := true })) ∧
    (∀ s : List Char, logText s l = (false, { l with overflow := true })) ∧
    (∀ v : Int, (logInt v l).1 = false ∧ (logInt v l).2.buffer = l.buffer ∧
      (logInt v l).2.position = l.position) ∧
    ((logRaw [] l).1 = true ∧ (logRaw [] l).2.buffer = l.buffer ∧
      (logRaw [] l).2.position = l.position) := by
  have hrem : remaining_capacity l = 0 := by
    rw [remaining_capacity_eq_sub]
    omega
  refine ⟨?_, ?_, ?_, ?_⟩
  · intro d hd
    have hlen : d.length > remaining_capacity l := by
      rw [hrem]
      cases d with
      | nil => exact absurd rfl hd
      | cons a t => simp
    rw [logRaw, if_pos hlen]
  · intro s
    rw [logText, if_pos (by omega)]
  · intro v
    rw [logInt]
    split
    · exact ⟨rfl, rfl, rfl⟩
    · rw [log_formatted_string, if_pos (by omega)]
      exact ⟨rfl, rfl, rfl⟩
  · rw [logRaw, if_neg (by simp)]
    exact ⟨rfl, rfl, rfl⟩

/-- Witness for C10 (amended): text `Hi` on a writer bound to an empty
region fails with the flag set. -/
theorem c10_zero_capacity_rejects_witness :
    logText ['H', 'i'] (mkLogger []) = (false, { mkLogger [] with overflow := true }) :=
  (c10_zero_capacity_rejects (mkLogger []) rfl).2.1 ['H', 'i']

end LogBuffer
